import Mathlib

/-!
Shallow embedding of the core (non-GUI) engine of the FTP RAR downloader
(`main.py`): the `FTPClient` session (connect / close / listdir /
download_file) and the `App._extract_rar` routine, together with the
Python string primitives they use.  Machine integers do not occur (Python
ints are unbounded); byte contents are modelled as `List Nat`.
-/

/-- Python `str` whitespace characters relevant to `str.split()` with the
default separator (ASCII range). -/
def isPySpace (c : Char) : Bool :=
  c = ' ' || c = '\t' || c = '\n' || c = '\r' || c = '\x0b' || c = '\x0c'

/-- The final element produced by Python `s.split(maxsplit=k)` once all `k`
splits are used: remaining leading whitespace is skipped and the rest of the
string (trailing whitespace included) is one element; nothing is produced if
only whitespace remains. -/
def pyRest (cs : List Char) : List String :=
  let cs := cs.dropWhile isPySpace
  if cs.isEmpty then [] else [String.mk cs]

/-- Python `s.split(maxsplit=n)` with the default (whitespace) separator, on
the character list of `s`: runs of whitespace separate tokens, no empty
tokens are produced, and after `n` splits the remainder is a single final
element (see `pyRest`). -/
def pySplitN : Nat → List Char → List String
  | 0, cs => pyRest cs
  | n + 1, cs =>
    match cs.dropWhile isPySpace with
    | [] => []
    | c :: rest =>
      let tok := c :: rest.takeWhile (fun x => !isPySpace x)
      let rest2 := rest.dropWhile (fun x => !isPySpace x)
      String.mk tok :: pySplitN n rest2

/-- Python `line.split(maxsplit=8)` from `FTPClient.listdir`: at most 9 parts. -/
def pySplit8 (line : String) : List String :=
  pySplitN 8 line.data

/-- Python `s.isdigit()` restricted to ASCII decimal digits (the only digits
occurring in LIST size fields): true iff `s` is non-empty and all digits. -/
def pyIsDigit (s : String) : Bool :=
  !s.isEmpty && s.data.all Char.isDigit

/-- Decimal value of a digit string (the value `int(s)` returns when
`s.isdigit()` holds). -/
def decDigits (s : String) : Nat :=
  s.data.foldl (fun a c => a * 10 + (c.toNat - 48)) 0

/-- Python `s.startswith(pre)`: `pre`'s characters are a prefix of `s`'s. -/
def pyStartsWith (s pre : String) : Bool :=
  pre.data.isPrefixOf s.data

/-- One normalized directory entry as built by `FTPClient.listdir`
(the dict `{"name": ..., "type": ..., "size": ..., "modify": ...}`). -/
structure Entry where
  name : String
  type : String
  size : Nat
  modify : String
deriving Repr, DecidableEq

/-- Parsing of one legacy free-text `LIST` line in `FTPClient.listdir`:
split into at most 9 whitespace-delimited parts; with fewer than 9 parts the
entry is a plain file named by the last part (or the whole line when no part
exists); with 9 parts the fields are
`mode, _, _, _, size, month, day, time_or_year, name`, the entry is a
directory iff `mode` starts with `"d"`, the size is `int(size)` when the
token is all digits (else 0), and `modify` is the f-string
`f"{day} {month} {time_or_year}"`. -/
def parseLegacyLine (line : String) : Entry :=
  let parts := pySplit8 line
  if parts.length < 9 then
    { name := (parts.getLast?).getD line, type := "file", size := 0, modify := "" }
  else
    let mode := parts.getD 0 ""
    let size := parts.getD 4 ""
    let month := parts.getD 5 ""
    let day := parts.getD 6 ""
    let time_or_year := parts.getD 7 ""
    let name := parts.getD 8 ""
    { name := name
      type := if pyStartsWith mode "d" then "dir" else "file"
      size := if pyIsDigit size then decDigits size else 0
      modify := day ++ " " ++ month ++ " " ++ time_or_year }

/-- The MLSD facts dictionary of one structured-mode record, restricted to
the keys `FTPClient.listdir` reads (`type`, `size`, `modify`); a missing key
is `none`. -/
structure Facts where
  type : Option String := none
  size : Option String := none
  modify : Option String := none
deriving Repr, DecidableEq

/-- Errors surfaced by the ftplib calls in `FTPClient.listdir`:
`ftplib.error_perm`, `AttributeError` (no `mlsd` method), and any other
exception (e.g. `ValueError` from `int(...)`, `error_temp`, socket errors),
which propagates uncaught. -/
inductive FtpErr where
  | errorPerm
  | attributeError
  | other (msg : String)
deriving Repr, DecidableEq

/-- The dict built for one MLSD record in `FTPClient.listdir`:
`type` defaults to `"file"`, `size` is `int(facts.get("size", 0)) if
facts.get("size") else 0` — the empty or missing size fact gives 0, a
non-digit size fact raises `ValueError` (modelled for non-negative decimal
size facts, the form MLSD emits), `modify` defaults to `""`. -/
def entryOfMlsd (rec : String × Facts) : Except FtpErr Entry :=
  let sz := (rec.2.size).getD ""
  if sz = "" then
    Except.ok { name := rec.1, type := (rec.2.type).getD "file", size := 0,
                modify := (rec.2.modify).getD "" }
  else if pyIsDigit sz then
    Except.ok { name := rec.1, type := (rec.2.type).getD "file", size := decDigits sz,
                modify := (rec.2.modify).getD "" }
  else
    Except.error (FtpErr.other "ValueError")

/-- The structured-mode loop of `FTPClient.listdir`: convert each MLSD
record in order; the first conversion error aborts (it is not caught by the
`except (error_perm, AttributeError)` clause). -/
def mlsdEntries (recs : List (String × Facts)) : Except FtpErr (List Entry) :=
  recs.mapM entryOfMlsd

/-- Code point of a character after Python `str.lower()`, for the ASCII
range `A`–`Z` (the alphabet of directory listings; other code points are
unchanged). -/
def lowerCode (c : Char) : Nat :=
  if 65 ≤ c.toNat ∧ c.toNat ≤ 90 then c.toNat + 32 else c.toNat

/-- The sort key of `FTPClient.listdir`, `x["name"].lower()`, as its code
point sequence (Python compares strings by code points). -/
def entryKey (e : Entry) : List Nat :=
  e.name.data.map lowerCode

/-- Lexicographic order on code point sequences: exactly Python string
comparison (a proper prefix sorts first). -/
def natLexLe : List Nat → List Nat → Bool
  | [], _ => true
  | _ :: _, [] => false
  | a :: as, b :: bs =>
    if a < b then true
    else if b < a then false
    else natLexLe as bs

/-- The comparison underlying Python `sort(key=lambda x: x["name"].lower())`. -/
def entryLe (a b : Entry) : Prop :=
  natLexLe (entryKey a) (entryKey b) = true

instance : DecidableRel entryLe := fun a b =>
  inferInstanceAs (Decidable (natLexLe (entryKey a) (entryKey b) = true))

/-- Python `list.sort(key=lambda x: x["name"].lower())`: a stable sort,
ascending and case-insensitive in the name (insertion sort is stable, like
CPython's sort). -/
def sortEntries (l : List Entry) : List Entry :=
  List.insertionSort entryLe l

/-- The synthetic "go up" entry `{"name": "..", "type": "up", ...}` that
`FTPClient.listdir` prepends unconditionally. -/
def parentEntry : Entry :=
  { name := "..", type := "up", size := 0, modify := "" }

/-- The tail of `FTPClient.listdir`, common to both input modes: drop
entries named `"."`, split into `type == "dir"` and the rest, sort each
group by lowered name, and return parent-entry :: dirs ++ files. -/
def normalizeEntries (es : List Entry) : List Entry :=
  let es := es.filter (fun e => e.name ≠ ".")
  let dirs := es.filter (fun e => e.type = "dir")
  let files := es.filter (fun e => e.type ≠ "dir")
  parentEntry :: (sortEntries dirs ++ sortEntries files)

/-- The remote server's responses, as functions of the path argument:
`mlsd p` models iterating `self.ftp.mlsd(p)` (ftplib collects the whole
MLSD reply before yielding, so the reply is all-or-nothing), and `list p`
models `self.ftp.retrlines(f"LIST {p}", lines.append)`. -/
structure Server where
  mlsd : String → Except FtpErr (List (String × Facts))
  list : String → Except FtpErr (List String)

/-- Model of `FTPClient.listdir(path)` on a connected client: try the structured
MLSD mode; on `error_perm` or `AttributeError` fall back to parsing the
legacy `LIST` lines for the same path; other errors propagate.  A `path` of
`none` (Python `None`) uses the session's `current_path`. -/
def listdirFn (srv : Server) (current_path : String) (path? : Option String) :
    Except FtpErr (List Entry) :=
  match srv.mlsd (path?.getD current_path) with
  | Except.ok recs =>
    match mlsdEntries recs with
    | Except.ok es => Except.ok (normalizeEntries es)
    | Except.error e => Except.error e
  | Except.error FtpErr.errorPerm =>
    match srv.list (path?.getD current_path) with
    | Except.ok lines => Except.ok (normalizeEntries (lines.map parseLegacyLine))
    | Except.error e => Except.error e
  | Except.error FtpErr.attributeError =>
    match srv.list (path?.getD current_path) with
    | Except.ok lines => Except.ok (normalizeEntries (lines.map parseLegacyLine))
    | Except.error e => Except.error e
  | Except.error (FtpErr.other m) => Except.error (FtpErr.other m)

/-- The `_writer` callback loop of `FTPClient.download_file`: `bytes_done`
starts at `rest`; for each received block `f.write(block)` runs, then
`bytes_done += len(block)`, then `progress_cb(bytes_done, total_size)`.
Blocks are abstracted by their lengths; the returned list is the sequence of
`(bytes_done, total_size)` arguments passed to the callback, in order. -/
def progressCalls (bytes_done : Nat) (total_size : Option Nat) :
    List Nat → List (Nat × Option Nat)
  | [] => []
  | b :: bs => (bytes_done + b, total_size) :: progressCalls (bytes_done + b) total_size bs

/-- Model of `FTPClient.download_file` as seen by the progress callback:
`total_size` is the (optional) result of `self.ftp.size(remote_path)` probed
once before streaming (`None` when the query raised), `blocks` the block
lengths ftplib delivers for `RETR`, `rest` the resume offset at which
`bytes_done` starts. -/
def downloadFileCalls (total_size : Option Nat) (blocks : List Nat) (rest : Nat) :
    List (Nat × Option Nat) :=
  progressCalls rest total_size blocks

/-- Bytes present in the local file after `download_file`: mode `"ab"`
keeps the `rest` pre-existing bytes when `rest > 0`, else `"wb"`
truncates; every received block is appended. -/
def downloadFileLocalLen (blocks : List Nat) (rest : Nat) : Nat :=
  (if rest > 0 then rest else 0) + blocks.sum

/-- The mutable state of `FTPClient`: the optional live `ftplib.FTP`
handle (handles are abstracted by numeric identities) and `current_path`. -/
structure Session where
  ftp : Option Nat
  current_path : String
deriving Repr, DecidableEq

/-- Model of `FTPClient.close`: when a handle is attached, quit/close it (the
teardown never raises out) and detach it.  Returns the new state and the
list of handles torn down. -/
def closeFn (s : Session) : Session × List Nat :=
  match s.ftp with
  | some h => ({ ftp := none, current_path := s.current_path }, [h])
  | none => (s, [])

/-- Result record of `connectFn`: the session after the call, the handles
torn down during the call, and the Python-level outcome (`True` or the
raised exception). -/
structure ConnectResult where
  session : Session
  closed : List Nat
  result : Except String Bool
deriving Repr

/-- The outcome of the network handshake a `connect` attempt runs
(`ftp.connect`, `ftp.login`, `getwelcome`, `voidcmd("TYPE I")`): either
some step raises (with a reason), or all succeed, yielding the new handle
and the optional result of the `ftp.pwd()` query (`none` when it raised). -/
def Handshake : Type :=
  Except String (Nat × Option String)

/-- Model of `FTPClient.connect`: first `self.close()` (tearing down any prior
handle), then the handshake; only after every handshake step succeeded is
`self.ftp` assigned the new handle, and `current_path` is set from
`ftp.pwd()` with fallback `"/"`; a handshake failure propagates with
`self.ftp` still `None`. -/
def connectFn (s : Session) (hs : Handshake) : ConnectResult :=
  let c := closeFn s
  match hs with
  | Except.error e => { session := c.1, closed := c.2, result := Except.error e }
  | Except.ok (h, pwdRes) =>
      { session := { ftp := some h, current_path := pwdRes.getD "/" }
        closed := c.2
        result := Except.ok true }

/-- Splitting a character list at `'/'` (Python `str.split("/")`). -/
def splitSlashAux : List Char → List Char → List String
  | acc, [] => [String.mk acc.reverse]
  | acc, c :: cs =>
    if c = '/' then String.mk acc.reverse :: splitSlashAux [] cs
    else splitSlashAux (c :: acc) cs

/-- Model of `Path(m.filename).as_posix().lstrip("/")` as a segment list: split on
`"/"`; `PurePath` construction drops empty segments and `"."` segments and
`lstrip` removes leading slashes, so exactly the non-empty, non-`"."`
segments remain (`".."` segments are kept). -/
def pathSegs (s : String) : List String :=
  (splitSlashAux [] s.data).filter (fun t => t != "" && t != ".")

/-- Model of `Path.resolve()` on an absolute path given by its segment list, in a
filesystem without symlinks (and non-strict, so it never raises): process
segments left to right, `".."` pops the last segment (a no-op at the root),
`"."` is dropped, anything else is appended. -/
def resolveSegs (p : List String) : List String :=
  p.foldl (fun acc s => if s = ".." then acc.dropLast else if s = "." then acc else acc ++ [s]) []

/-- Segments joined with `"/"`. -/
def joinSlash : List String → String
  | [] => ""
  | [x] => x
  | x :: xs => x ++ "/" ++ joinSlash xs

/-- Model of `str(...)` of an absolute path given by its segment list:
`"/"` for the root, else `"/"`-joined segments with a leading slash. -/
def pathStr (p : List String) : String :=
  "/" ++ joinSlash p

/-- The local filesystem visible to `_extract_rar`: directories and files
keyed by resolved absolute segment lists, file payloads as byte lists. -/
structure FS where
  dirs : List (List String)
  files : List (List String × List Nat)
deriving Repr, DecidableEq

/-- Model of `Path.exists()` at a resolved path. -/
def existsP (fs : FS) (p : List String) : Bool :=
  fs.dirs.any (fun q => q == p) || fs.files.any (fun q => q.1 == p)

/-- Model of `Path.is_file()` at a resolved path. -/
def isFileP (fs : FS) (p : List String) : Bool :=
  fs.files.any (fun q => q.1 == p)

/-- Bytes of the file at a resolved path, when one exists. -/
def lookupFile (fs : FS) (p : List String) : Option (List Nat) :=
  (fs.files.find? (fun q => q.1 == p)).map (fun q => q.2)

/-- Model of `mkdir(parents=True, exist_ok=True)`: create the directory and all its
ancestors, idempotently. -/
def mkdirP (fs : FS) (p : List String) : FS :=
  { fs with dirs := ((List.range (p.length + 1)).map (fun n => p.take n)) ++ fs.dirs }

/-- The removal step of the overwrite branch: `unlink()` when the target is
a file, else `shutil.rmtree` (the target and everything below it). -/
def removeP (fs : FS) (p : List String) : FS :=
  if isFileP fs p then
    { fs with files := fs.files.filter (fun q => q.1 != p) }
  else
    { dirs := fs.dirs.filter (fun q => !(p.isPrefixOf q))
      files := fs.files.filter (fun q => !(p.isPrefixOf q.1)) }

/-- Model of `rf.extract(m, path=dest_dir)`: the member's bytes land at the joined
path (the OS resolves it on open), replacing any file already there. -/
def writeF (fs : FS) (p : List String) (content : List Nat) : FS :=
  { fs with files := (p, content) :: fs.files.filter (fun q => q.1 != p) }

/-- One archive member as `_extract_rar` consumes it: `m.filename`,
`m.is_dir()`, and the member's bytes. -/
structure RarMember where
  filename : String
  isDir : Bool
  content : List Nat
deriving Repr, DecidableEq

/-- The traversal guard of `_extract_rar` (true = member accepted):
`target = dest_dir / name_posix`;
`target_resolved_parent = (target.parent if m.is_dir() else target).resolve().parent`
(`resolve()` is non-strict and never raises, so the `except
FileNotFoundError` branch is dead); accept iff
`str(target_resolved_parent).startswith(str(dest_dir.resolve()))`. -/
def extractGuardOk (dest : List String) (m : RarMember) : Bool :=
  let target := dest ++ pathSegs m.filename
  let base := if m.isDir then target.dropLast else target
  let target_resolved_parent := (resolveSegs base).dropLast
  pyStartsWith (pathStr target_resolved_parent) (pathStr (resolveSegs dest))

/-- The body of the member loop of `_extract_rar`: guard, then directory
creation for directory members, else ensure the parent directory, apply the
overwrite logic (`unlink`/`rmtree` when the target exists and `overwrite`),
and write the member unless it still exists with `overwrite = False`. -/
def extractStep (dest : List String) (overwrite : Bool) (fs : FS) (m : RarMember) :
    Except String FS :=
  let target := dest ++ pathSegs m.filename
  if !(extractGuardOk dest m) then
    Except.error ("Unsafe path in archive: " ++ m.filename)
  else if m.isDir then
    Except.ok (mkdirP fs (resolveSegs target))
  else
    let fs1 := mkdirP fs (resolveSegs target.dropLast)
    let tR := resolveSegs target
    let fs2 := if existsP fs1 tR && overwrite then removeP fs1 tR else fs1
    if !(existsP fs2 tR) || overwrite then Except.ok (writeF fs2 tR m.content)
    else Except.ok fs2

/-- Model of `App._extract_rar(rar_path, dest_dir, overwrite)` over the archive's
member list in enumeration order: the first raised exception aborts the
loop, leaving the filesystem as the preceding members left it; `none` in
the second component means the call returned normally. -/
def runExtract (dest : List String) (overwrite : Bool) :
    FS → List RarMember → FS × Option String
  | fs, [] => (fs, none)
  | fs, m :: ms =>
    match extractStep dest overwrite fs m with
    | Except.error e => (fs, some e)
    | Except.ok fs2 => runExtract dest overwrite fs2 ms

deriving instance DecidableEq for Except

/-- Concrete server for witnesses: MLSD always rejected with a permission
error, `LIST` returns two legacy lines (one directory, one file). -/
def srvLegacy : Server :=
  { mlsd := fun _ => Except.error FtpErr.errorPerm
    list := fun _ => Except.ok ["drwxr-xr-x 2 u g 4096 Jan 15 10:30 bbb",
                                "-rw-r--r-- 1 u g 100 Jan 15 10:30 Aaa.txt"] }

/-- Witness destination directory `/tmp/out`. -/
def destW : List String := ["tmp", "out"]

/-- Witness filesystem: only `/`, `/tmp` and `/tmp/out` exist. -/
def fs0W : FS := { dirs := [[], ["tmp"], ["tmp", "out"]], files := [] }

/-- Witness filesystem: as `fs0W` plus an existing `/tmp/out/foo.txt`. -/
def fsFooW : FS :=
  { dirs := [[], ["tmp"], ["tmp", "out"]], files := [(["tmp", "out", "foo.txt"], [1, 2, 3])] }

/-- Benign witness member. -/
def memGood : RarMember := { filename := "good.txt", isDir := false, content := [7] }

/-- Traversal witness member (caught by the guard). -/
def memEvil : RarMember := { filename := "../../etc/passwd", isDir := false, content := [9] }

/-- Witness member after the unsafe one (never processed). -/
def memAfter : RarMember := { filename := "z.txt", isDir := false, content := [1] }

/-- Sibling-escape member: resolves to `/tmp/out2/evil.txt`, outside
`/tmp/out`, yet its resolved parent's string starts with `"/tmp/out"`. -/
def memOutEvil : RarMember := { filename := "../out2/evil.txt", isDir := false, content := [9] }

/-- Archive member clashing with the existing `/tmp/out/foo.txt`. -/
def memFoo : RarMember := { filename := "foo.txt", isDir := false, content := [9, 9] }

/-- Filesystem state after extracting `memGood` into `fs0W`. -/
def fs1W : FS :=
  { dirs := [[], ["tmp"], ["tmp", "out"], [], ["tmp"], ["tmp", "out"]]
    files := [(["tmp", "out", "good.txt"], [7])] }

/-- Witness session holding a live connection (handle 5). -/
def sessW : Session := { ftp := some 5, current_path := "/pub" }

/-- A nine-token legacy line whose month token is `"Jan"`, day token `"15"`,
time token `"10:30"`. -/
def c6line : String := "drwxr-xr-x 2 u g 4096 Jan 15 10:30 stuff"

/-- Block lengths of a 300000-byte transfer at blocksize 65536. -/
def blocks300k : List Nat := [65536, 65536, 65536, 65536, 37856]

/-! Theorems. -/

/-- Totality of `natLexLe`. -/
theorem natLexLe_total : ∀ x y : List Nat, natLexLe x y = true ∨ natLexLe y x = true
  | [], _ => Or.inl rfl
  | _ :: _, [] => Or.inr rfl
  | a :: as, b :: bs => by
    by_cases h1 : a < b
    · exact Or.inl (by simp [natLexLe, h1])
    · by_cases h2 : b < a
      · exact Or.inr (by simp [natLexLe, h2])
      · rcases natLexLe_total as bs with h | h
        · exact Or.inl (by rw [natLexLe]; simpa [h1, h2] using h)
        · exact Or.inr (by rw [natLexLe]; simpa [h2, h1] using h)

/-- Transitivity of `natLexLe`. -/
theorem natLexLe_trans : ∀ x y z : List Nat,
    natLexLe x y = true → natLexLe y z = true → natLexLe x z = true
  | [], _, _, _, _ => rfl
  | _ :: _, [], _, hxy, _ => by simp [natLexLe] at hxy
  | _ :: _, _ :: _, [], _, hyz => by simp [natLexLe] at hyz
  | a :: as, b :: bs, c :: cs, hxy, hyz => by
    rw [natLexLe] at hxy hyz ⊢
    by_cases h1 : a < b
    · by_cases h2 : b < c
      · simp [Nat.lt_trans h1 h2]
      · by_cases h3 : c < b
        · simp [h2, h3] at hyz
        · have hac : a < c := by omega
          simp [hac]
    · by_cases h4 : b < a
      · simp [h1, h4] at hxy
      · simp [h1, h4] at hxy
        by_cases h2 : b < c
        · have hac : a < c := by omega
          simp [hac]
        · by_cases h3 : c < b
          · simp [h2, h3] at hyz
          · simp [h2, h3] at hyz
            have h5 : ¬ a < c := by omega
            have h6 : ¬ c < a := by omega
            simp [h5, h6]
            exact natLexLe_trans as bs cs hxy hyz

/-- Every element of `pyRest` is a non-empty string. -/
theorem mem_pyRest_ne_empty {cs : List Char} {s : String} (h : s ∈ pyRest cs) : s ≠ "" := by
  unfold pyRest at h
  by_cases he : (cs.dropWhile isPySpace).isEmpty
  · simp [he] at h
  · simp only [he, if_neg, Bool.false_eq_true, not_false_iff, List.mem_singleton] at h
    subst h
    intro hc
    have hdata := congrArg String.data hc
    simp only [String.data] at hdata
    rw [List.isEmpty_iff] at he
    exact he hdata

/-- Every token Python `split` produces is a non-empty string. -/
theorem mem_pySplitN_ne_empty : ∀ (n : Nat) (cs : List Char) (s : String),
    s ∈ pySplitN n cs → s ≠ ""
  | 0, cs, s, h => mem_pyRest_ne_empty h
  | n + 1, cs, s, h => by
    rw [pySplitN] at h
    cases hd : cs.dropWhile isPySpace with
    | nil => rw [hd] at h; cases h
    | cons c rest =>
      rw [hd] at h
      rcases List.mem_cons.mp h with rfl | h
      · intro hc
        have hdata := congrArg String.data hc
        simp only [String.data] at hdata
        cases hdata
      · exact mem_pySplitN_ne_empty n _ s h

/-- The short-line branch of `parseLegacyLine`. -/
theorem parseLegacyLine_short (line : String) (hlen : (pySplit8 line).length < 9) :
    parseLegacyLine line =
      { name := ((pySplit8 line).getLast?).getD line, type := "file", size := 0,
        modify := "" } := by
  unfold parseLegacyLine
  simp only [hlen, if_pos]

/-- Claim C5 (amended): a legacy LIST line that splits into fewer than nine
whitespace-delimited tokens parses to an entry with kind `file`, size 0 and,
provided the line itself is non-empty, a non-empty name (the whole line when
no token exists, its last token otherwise); parsing is a total function, so
no exception is raised.  (The empty line is the one exception: its entry's
name is the empty string.) -/
theorem legacy_short_line_parse (line : String) (hne : line ≠ "")
    (hlen : (pySplit8 line).length < 9) :
    (parseLegacyLine line).type = "file" ∧ (parseLegacyLine line).size = 0 ∧
    (parseLegacyLine line).name ≠ "" := by
  rw [parseLegacyLine_short line hlen]
  refine ⟨rfl, rfl, ?_⟩
  cases hlast : (pySplit8 line).getLast? with
  | none => simpa [hlast] using hne
  | some t =>
    have ht : t ∈ pySplit8 line := by
      obtain ⟨hne', heq⟩ := List.mem_getLast?_eq_getLast (Option.mem_def.mpr hlast)
      rw [heq]
      exact List.getLast_mem hne'
    simpa [hlast] using mem_pySplitN_ne_empty 8 line.data t ht

/-- Witness for `legacy_short_line_parse` at the concrete line `"total 12"`. -/
theorem legacy_short_line_parse_witness :
    (parseLegacyLine "total 12").type = "file" ∧ (parseLegacyLine "total 12").size = 0 ∧
    (parseLegacyLine "total 12").name ≠ "" :=
  legacy_short_line_parse "total 12" (by decide) (by decide)

/-- Counterexample to claim C5 as stated: the empty legacy line splits into
fewer than nine tokens, yet the resulting entry's name is empty. -/
theorem legacy_short_line_empty_name :
    (pySplit8 "").length < 9 ∧ (parseLegacyLine "").name = "" := by decide

/-- Claim C6 (amended): a legacy LIST line with (at least) nine
whitespace-delimited tokens parses to an entry that is a directory exactly
when the first token's leading character is `d`, whose size is read from the
fifth token (0 when it is not all digits), and whose `modify` string is the
day, month and time-or-year tokens joined in that order with single
spaces. -/
theorem legacy_full_line_parse (line m1 m2 m3 m4 sz mon dy ty nm : String)
    (h : pySplit8 line = [m1, m2, m3, m4, sz, mon, dy, ty, nm]) :
    parseLegacyLine line =
      { name := nm
        type := if pyStartsWith m1 "d" then "dir" else "file"
        size := if pyIsDigit sz then decDigits sz else 0
        modify := dy ++ " " ++ mon ++ " " ++ ty } := by
  unfold parseLegacyLine
  rw [h]
  simp

/-- Witness for `legacy_full_line_parse` at `c6line`. -/
theorem legacy_full_line_parse_witness :
    parseLegacyLine c6line =
      { name := "stuff", type := "dir", size := 4096, modify := "15 Jan 10:30" } :=
  (legacy_full_line_parse c6line "drwxr-xr-x" "2" "u" "g" "4096" "Jan" "15" "10:30" "stuff"
    (by decide)).trans (by decide)

/-- Counterexample to claim C6 as stated: on `c6line` the month token is
`"Jan"`, the day token `"15"` and the time token `"10:30"`, but `modify` is
`"15 Jan 10:30"` — the day comes first, so `modify` is not the concatenation
of month, day and time-or-year in that order (it does not even start with
the month token). -/
theorem legacy_modify_day_first :
    (pySplit8 c6line).getD 5 "" = "Jan"
    ∧ (pySplit8 c6line).getD 6 "" = "15"
    ∧ (pySplit8 c6line).getD 7 "" = "10:30"
    ∧ (parseLegacyLine c6line).modify = "15 Jan 10:30"
    ∧ (parseLegacyLine c6line).modify ≠ "Jan 15 10:30"
    ∧ pyStartsWith (parseLegacyLine c6line).modify "Jan" = false := by decide

/-- The `sortEntries` output is sorted for the listing comparison. -/
theorem sortEntries_sorted (l : List Entry) : List.Sorted entryLe (sortEntries l) := by
  haveI : IsTotal Entry entryLe := ⟨fun a b => natLexLe_total (entryKey a) (entryKey b)⟩
  haveI : IsTrans Entry entryLe := ⟨fun _ _ _ h h' => natLexLe_trans _ _ _ h h'⟩
  exact List.sorted_insertionSort entryLe l

/-- The `sortEntries` output permutes its input. -/
theorem sortEntries_perm (l : List Entry) : (sortEntries l).Perm l :=
  List.perm_insertionSort entryLe l

/-- Shape of the common normalization tail of `listdir`: the synthetic
parent entry first, then the sorted directories, then the sorted
non-directories, and together they are exactly the input entries not named
`"."`. -/
theorem normalizeEntries_shape (es : List Entry) :
    ∃ ds fls, normalizeEntries es = parentEntry :: (ds ++ fls)
      ∧ List.Sorted entryLe ds ∧ List.Sorted entryLe fls
      ∧ (∀ e ∈ ds, e.type = "dir") ∧ (∀ e ∈ fls, e.type ≠ "dir")
      ∧ (ds ++ fls).Perm ((es.filter (fun e => e.name ≠ ".")).filter (fun e => e.type = "dir")
          ++ (es.filter (fun e => e.name ≠ ".")).filter (fun e => e.type ≠ "dir")) := by
  simp only [normalizeEntries]
  refine ⟨_, _, rfl, sortEntries_sorted _, sortEntries_sorted _, ?_, ?_, ?_⟩
  · intro e he
    have := (sortEntries_perm _).mem_iff.mp he
    exact of_decide_eq_true (List.mem_filter.mp this).2
  · intro e he
    have := (sortEntries_perm _).mem_iff.mp he
    exact of_decide_eq_true (List.mem_filter.mp this).2
  · exact List.Perm.append (sortEntries_perm _) (sortEntries_perm _)

/-- Claim C3: every listing `listdir` returns, in either input mode, is
exactly one synthetic parent entry first, then the `type = "dir"` entries,
then the remaining (file) entries, each of the two groups sorted ascending
case-insensitively by name. -/
theorem listdir_output_ordering (srv : Server) (cur : String) (path? : Option String)
    (l : List Entry) (h : listdirFn srv cur path? = Except.ok l) :
    ∃ ds fls, l = parentEntry :: (ds ++ fls)
      ∧ List.Sorted entryLe ds ∧ List.Sorted entryLe fls
      ∧ (∀ e ∈ ds, e.type = "dir") ∧ (∀ e ∈ fls, e.type ≠ "dir") := by
  have hsome : ∃ es, l = normalizeEntries es := by
    unfold listdirFn at h
    split at h
    · split at h
      · exact ⟨_, (Except.ok.inj h).symm⟩
      · exact Except.noConfusion h
    · split at h
      · exact ⟨_, (Except.ok.inj h).symm⟩
      · exact Except.noConfusion h
    · split at h
      · exact ⟨_, (Except.ok.inj h).symm⟩
      · exact Except.noConfusion h
    · exact Except.noConfusion h
  obtain ⟨es, rfl⟩ := hsome
  obtain ⟨ds, fls, h1, h2, h3, h4, h5, -⟩ := normalizeEntries_shape es
  exact ⟨ds, fls, h1, h2, h3, h4, h5⟩

/-- Witness for `listdir_output_ordering`: the legacy-mode server
`srvLegacy` yields parent, then directory `bbb`, then file `Aaa.txt`. -/
theorem listdir_output_ordering_witness :
    ∃ ds fls,
      ([parentEntry,
        { name := "bbb", type := "dir", size := 4096, modify := "15 Jan 10:30" },
        { name := "Aaa.txt", type := "file", size := 100, modify := "15 Jan 10:30" }]
        : List Entry) = parentEntry :: (ds ++ fls)
      ∧ List.Sorted entryLe ds ∧ List.Sorted entryLe fls
      ∧ (∀ e ∈ ds, e.type = "dir") ∧ (∀ e ∈ fls, e.type ≠ "dir") :=
  listdir_output_ordering srvLegacy "/" (some "/pub") _ (by decide)

/-- Claim C4: when the structured (MLSD) attempt fails with a
permission/unsupported error (`error_perm`) or with `AttributeError`,
`listdir` falls back to the legacy free-text `LIST` mode against the same
path and still returns a normal entry sequence. -/
theorem listdir_legacy_fallback (srv : Server) (cur : String) (path? : Option String)
    (e : FtpErr) (lines : List String)
    (hm : srv.mlsd (path?.getD cur) = Except.error e)
    (he : e = FtpErr.errorPerm ∨ e = FtpErr.attributeError)
    (hl : srv.list (path?.getD cur) = Except.ok lines) :
    listdirFn srv cur path? = Except.ok (normalizeEntries (lines.map parseLegacyLine)) := by
  unfold listdirFn
  rcases he with rfl | rfl <;> rw [hm, hl]

/-- Witness for `listdir_legacy_fallback` on `srvLegacy` (which rejects
MLSD with `error_perm`). -/
theorem listdir_legacy_fallback_witness :
    listdirFn srvLegacy "/" none = Except.ok (normalizeEntries
      (["drwxr-xr-x 2 u g 4096 Jan 15 10:30 bbb",
        "-rw-r--r-- 1 u g 100 Jan 15 10:30 Aaa.txt"].map parseLegacyLine)) :=
  listdir_legacy_fallback srvLegacy "/" none FtpErr.errorPerm _ rfl (Or.inl rfl) rfl

/-- One callback per received block. -/
theorem progressCalls_length (t : Option Nat) : ∀ (bs : List Nat) (r : Nat),
    (progressCalls r t bs).length = bs.length
  | [], _ => rfl
  | b :: bs, r => by
    rw [progressCalls]
    simp [progressCalls_length t bs (r + b)]

/-- Every callback receives the probed total size. -/
theorem progressCalls_snd (t : Option Nat) : ∀ (bs : List Nat) (r : Nat) (c : Nat × Option Nat),
    c ∈ progressCalls r t bs → c.2 = t
  | [], _, _, hc => absurd hc (List.not_mem_nil _)
  | b :: bs, r, c, hc => by
    rw [progressCalls] at hc
    rcases List.mem_cons.mp hc with rfl | hc
    · rfl
    · exact progressCalls_snd t bs (r + b) c hc

/-- With every block non-empty, the reported byte counts strictly
increase. -/
theorem progressCalls_chain (t : Option Nat) : ∀ (bs : List Nat) (r : Nat),
    (∀ b ∈ bs, 0 < b) →
    List.Chain' (fun p q : Nat × Option Nat => p.1 < q.1) (progressCalls r t bs)
  | [], _, _ => List.chain'_nil
  | b :: bs, r, h => by
    rw [progressCalls]
    refine List.chain'_cons'.mpr ⟨?_, progressCalls_chain t bs (r + b)
      (fun x hx => h x (List.mem_cons_of_mem _ hx))⟩
    intro y hy
    cases bs with
    | nil => simp [progressCalls] at hy
    | cons b2 bs2 =>
      rw [progressCalls] at hy
      simp only [List.head?_cons, Option.mem_def, Option.some.injEq] at hy
      subst hy
      have hb2 : 0 < b2 := h b2 (by simp)
      exact Nat.lt_add_of_pos_right hb2

/-- The last callback reports the running offset plus all received bytes. -/
theorem progressCalls_last (t : Option Nat) : ∀ (bs : List Nat) (r : Nat), bs ≠ [] →
    (progressCalls r t bs).getLast? = some (r + bs.sum, t)
  | [], _, h => absurd rfl h
  | [b], r, _ => by simp [progressCalls]
  | b :: b2 :: bs, r, _ => by
    have ih := progressCalls_last t (b2 :: bs) (r + b) (by simp)
    rw [progressCalls] at ih
    rw [progressCalls, progressCalls, List.getLast?_cons_cons, ih]
    simp [Nat.add_assoc]

/-- The i-th callback reports the offset plus the first i+1 block lengths. -/
theorem progressCalls_getD (t : Option Nat) : ∀ (bs : List Nat) (r i : Nat), i < bs.length →
    (progressCalls r t bs).getD i (0, none) = (r + (bs.take (i + 1)).sum, t)
  | [], _, i, h => absurd h (by simp)
  | b :: bs, r, 0, _ => by simp [progressCalls]
  | b :: bs, r, i + 1, h => by
    rw [progressCalls]
    rw [List.getD_cons_succ]
    rw [progressCalls_getD t bs (r + b) i (by simpa using h)]
    simp [Nat.add_assoc]

/-- Claim C7: within one `download_file` call the progress callback runs
once per received block with strictly increasing `bytes_done`; for a
300000-byte remote file downloaded from offset 0 (size query returning
300000, non-empty blocks), every call carries `total = 300000` and the
last reported `bytes_done` is exactly 300000. -/
theorem download_progress_strict (blocks : List Nat)
    (hpos : ∀ b ∈ blocks, 0 < b) (hne : blocks ≠ []) (hsum : blocks.sum = 300000) :
    (downloadFileCalls (some 300000) blocks 0).length = blocks.length
    ∧ List.Chain' (fun p q : Nat × Option Nat => p.1 < q.1)
        (downloadFileCalls (some 300000) blocks 0)
    ∧ (∀ c ∈ downloadFileCalls (some 300000) blocks 0, c.2 = some 300000)
    ∧ (downloadFileCalls (some 300000) blocks 0).getLast? = some (300000, some 300000) := by
  refine ⟨progressCalls_length _ _ _, progressCalls_chain _ _ _ hpos,
    fun c hc => progressCalls_snd _ _ _ c hc, ?_⟩
  have h := progressCalls_last (some 300000) blocks 0 hne
  rw [hsum] at h
  simpa [downloadFileCalls] using h

/-- Witness for `download_progress_strict` on the blocks of a 300000-byte
transfer at blocksize 65536. -/
theorem download_progress_strict_witness :
    (downloadFileCalls (some 300000) blocks300k 0).length = blocks300k.length
    ∧ List.Chain' (fun p q : Nat × Option Nat => p.1 < q.1)
        (downloadFileCalls (some 300000) blocks300k 0)
    ∧ (downloadFileCalls (some 300000) blocks300k 0).getLast? = some (300000, some 300000) :=
  ⟨(download_progress_strict blocks300k (by decide) (by decide) (by decide)).1,
   (download_progress_strict blocks300k (by decide) (by decide) (by decide)).2.1,
   (download_progress_strict blocks300k (by decide) (by decide) (by decide)).2.2.2⟩

/-- Claim C10: with a resume offset r > 0 the callback's `bytes_done`
includes the r pre-existing bytes: the first call reports r plus the first
block's length, and the i-th call reports r plus all bytes appended so far
in this call. -/
theorem download_resume_reports_offset (r : Nat) (total : Option Nat) (blocks : List Nat)
    (_hr : 0 < r) :
    (∀ b bs, blocks = b :: bs →
      (downloadFileCalls total blocks r).head? = some (r + b, total))
    ∧ (∀ i, i < blocks.length →
        (downloadFileCalls total blocks r).getD i (0, none)
          = (r + (blocks.take (i + 1)).sum, total)) := by
  constructor
  · rintro b bs rfl
    rfl
  · intro i hi
    exact progressCalls_getD total blocks r i hi

/-- Witness for `download_resume_reports_offset` at r = 100 with blocks
[3, 4]. -/
theorem download_resume_reports_offset_witness :
    (downloadFileCalls (some 300) [3, 4] 100).head? = some (103, some 300)
    ∧ (downloadFileCalls (some 300) [3, 4] 100).getD 1 (0, none) = (107, some 300) :=
  ⟨(download_resume_reports_offset 100 (some 300) [3, 4] (by decide)).1 3 [4] rfl,
   by
    have h := (download_resume_reports_offset 100 (some 300) [3, 4] (by decide)).2 1 (by decide)
    simpa using h⟩

/-- Claim C9: `connect` first tears down any existing connection (the old
handle is closed), and afterwards the session holds either exactly the new
handle (on success) or no handle at all (on any handshake failure) — never
the old and the new one together. -/
theorem connect_teardown_and_exclusive (s : Session) (hs : Handshake) :
    (∀ g, s.ftp = some g → g ∈ (connectFn s hs).closed)
    ∧ (∀ e, hs = Except.error e →
        (connectFn s hs).session.ftp = none
        ∧ (connectFn s hs).result = Except.error e)
    ∧ (∀ h pwd, hs = Except.ok (h, pwd) → (connectFn s hs).session.ftp = some h) := by
  refine ⟨?_, ?_, ?_⟩
  · intro g hg
    cases hs with
    | error e => simp [connectFn, closeFn, hg]
    | ok v => cases v with
      | mk h pwd => simp [connectFn, closeFn, hg]
  · rintro e rfl
    cases hg : s.ftp with
    | none => simp [connectFn, closeFn, hg]
    | some g => simp [connectFn, closeFn, hg]
  · rintro h pwd rfl
    cases hg : s.ftp with
    | none => simp [connectFn, closeFn, hg]
    | some g => simp [connectFn, closeFn, hg]

/-- Witness for `connect_teardown_and_exclusive`: a failed handshake on a
session holding handle 5 closes handle 5 and leaves no handle attached. -/
theorem connect_teardown_and_exclusive_witness :
    5 ∈ (connectFn sessW (Except.error "auth failed")).closed
    ∧ (connectFn sessW (Except.error "auth failed")).session.ftp = none :=
  ⟨(connect_teardown_and_exclusive sessW (Except.error "auth failed")).1 5 rfl,
   ((connect_teardown_and_exclusive sessW (Except.error "auth failed")).2.1
     "auth failed" rfl).1⟩

/-- Creating directories never removes an existing path. -/
theorem existsP_mkdirP (fs : FS) (q p : List String) (h : existsP fs p = true) :
    existsP (mkdirP fs q) p = true := by
  simp only [existsP, mkdirP, List.any_append, Bool.or_eq_true] at h ⊢
  tauto

/-- Claim C2: when a member fails the traversal-guard containment check,
the whole extraction aborts right there with the "Unsafe path in archive"
error: members after it are never processed (the result does not depend on
them), and the filesystem stays exactly as the members before it left it
(no rollback). -/
theorem extract_unsafe_path_aborts (dest : List String) (ow : Bool) (fs fs1 : FS)
    (pre post : List RarMember) (m : RarMember)
    (hpre : runExtract dest ow fs pre = (fs1, none))
    (hm : extractGuardOk dest m = false) :
    runExtract dest ow fs (pre ++ m :: post)
      = (fs1, some ("Unsafe path in archive: " ++ m.filename)) := by
  induction pre generalizing fs with
  | nil =>
    rw [runExtract] at hpre
    injection hpre with h1 h2
    subst h1
    rw [List.nil_append, runExtract]
    have hstep : extractStep dest ow fs m
        = Except.error ("Unsafe path in archive: " ++ m.filename) := by
      unfold extractStep
      rw [hm]
      rfl
    rw [hstep]
  | cons p pre ih =>
    rw [runExtract] at hpre
    rw [List.cons_append, runExtract]
    cases hstep : extractStep dest ow fs p with
    | error e =>
      rw [hstep] at hpre
      exact Option.noConfusion (congrArg Prod.snd hpre)
    | ok fs2 =>
      rw [hstep] at hpre
      exact ih fs2 hpre

/-- Witness for `extract_unsafe_path_aborts`: `good.txt` is extracted, the
traversal member `../../etc/passwd` aborts the call, `z.txt` is never
written, and `good.txt` stays on disk. -/
theorem extract_unsafe_path_aborts_witness :
    runExtract destW false fs0W ([memGood] ++ memEvil :: [memAfter])
      = (fs1W, some ("Unsafe path in archive: " ++ memEvil.filename)) :=
  extract_unsafe_path_aborts destW false fs0W fs1W [memGood] [memAfter] memEvil
    (by decide) (by decide)

/-- Claim C8: with `overwrite = False` and an already-existing target file,
the member is skipped — the call continues with the remaining members from
a state whose files (in particular the existing target's bytes) are exactly
the ones before the member, and no error is raised. -/
theorem extract_no_overwrite_preserves (dest : List String) (fs : FS) (m : RarMember)
    (ms : List RarMember)
    (hdir : m.isDir = false)
    (hguard : extractGuardOk dest m = true)
    (hex : existsP fs (resolveSegs (dest ++ pathSegs m.filename)) = true) :
    runExtract dest false fs (m :: ms)
      = runExtract dest false
          (mkdirP fs (resolveSegs (dest ++ pathSegs m.filename).dropLast)) ms
    ∧ (mkdirP fs (resolveSegs (dest ++ pathSegs m.filename).dropLast)).files = fs.files := by
  have hex2 : existsP (mkdirP fs (resolveSegs (dest ++ pathSegs m.filename).dropLast))
      (resolveSegs (dest ++ pathSegs m.filename)) = true :=
    existsP_mkdirP _ _ _ hex
  have hstep : extractStep dest false fs m
      = Except.ok (mkdirP fs (resolveSegs (dest ++ pathSegs m.filename).dropLast)) := by
    unfold extractStep
    rw [hguard, hdir]
    simp [hex2]
  constructor
  · rw [runExtract, hstep]
  · rfl

/-- Witness for `extract_no_overwrite_preserves`: extracting a `foo.txt`
member with `overwrite = False` over an existing `/tmp/out/foo.txt` leaves
the file table (and so the original bytes `[1, 2, 3]`) unchanged. -/
theorem extract_no_overwrite_preserves_witness :
    runExtract destW false fsFooW [memFoo]
      = runExtract destW false
          (mkdirP fsFooW (resolveSegs (destW ++ pathSegs memFoo.filename).dropLast)) []
    ∧ (mkdirP fsFooW (resolveSegs (destW ++ pathSegs memFoo.filename).dropLast)).files
        = fsFooW.files :=
  extract_no_overwrite_preserves destW fsFooW memFoo [] (by decide) (by decide) (by decide)

/-- Claim C1, evaluated at a failing input: the member
`../out2/evil.txt` of `memOutEvil` resolves to `/tmp/out2/evil.txt`,
outside the destination `/tmp/out`, yet the guard accepts it (its resolved
parent's string `"/tmp/out2"` starts with `"/tmp/out"`), the call returns
without the unsafe-path error, and the member's bytes are written outside
the destination directory. -/
theorem extract_guard_sibling_bypass :
    extractGuardOk destW memOutEvil = true
    ∧ (runExtract destW true fs0W [memOutEvil]).2 = none
    ∧ lookupFile (runExtract destW true fs0W [memOutEvil]).1 ["tmp", "out2", "evil.txt"]
        = some [9]
    ∧ resolveSegs (destW ++ pathSegs memOutEvil.filename) = ["tmp", "out2", "evil.txt"]
    ∧ destW.isPrefixOf ["tmp", "out2", "evil.txt"] = false := by decide
